import Mathlib

/-!
Verification of the lot-sizing MILP formulation tools
(`tools/lot_sizing_tool.py` and `tools/capacitated_lot_sizing_tool.py`).

The two Python modules build a mixed-integer linear program and hand it to
an external solver (Gurobi), then unpack the solver's primal values.  We
embed the model-building and result-unpacking code shallowly: numbers are
rationals, the solver is an oracle function from the constructed model to a
`SolverResult`, and the solver's documented behaviour (on an optimal status
it returns primal values satisfying every constraint of the submitted model,
together with the objective value at that point) is the `SolverContract`
predicate.  Python exceptions are modelled by the `PyErr` type and the
`Except` monad.
-/

/-- A Python exception, as far as the two modules distinguish them:
`valueError` models `ValueError` (validation failures and `max()` on an
empty sequence), `runtimeError` models the `RuntimeError` raised on a
non-optimal solver status. -/
inductive PyErr where
  | valueError : String → PyErr
  | runtimeError : String → PyErr
deriving DecidableEq, Repr

/-- The MILP instance submitted to the solver, as built by `_solve_core`
(`cap = none`) or `_solve_cap_core` (`cap = some capacity`): per-period
demands, optional per-period capacities, the three objective coefficients,
the initial inventory appearing in the first balance constraint, and the
big-M coefficient of the linking constraints. -/
structure Model where
  demand : List ℚ
  cap : Option (List ℚ)
  setup_cost : ℚ
  unit_cost : ℚ
  holding_cost : ℚ
  initial_inventory : ℚ
  bigM : ℚ
deriving DecidableEq

/-- Number of periods of a model (`T = len(demand)` in the source). -/
def Model.T (m : Model) : ℕ := m.demand.length

/-- What the external solver hands back: a Gurobi status code (`2` is
`GRB.OPTIMAL`), the primal values of the `prod`, `inv` and `setup`
variables, and the objective value `ObjVal`. -/
structure SolverResult where
  status : ℕ
  prodX : List ℚ
  invX : List ℚ
  yX : List ℚ
  objVal : ℚ
deriving DecidableEq

/-- The inventory preceding period `t` in the balance constraint:
`initial_inventory if t == 0 else inv[t - 1]` (line 57 of both modules). -/
def prevInv (init : ℚ) (inv : List ℚ) (t : ℕ) : ℚ :=
  if t = 0 then init else inv.getD (t - 1) 0

/-- The constraints of period `t`, exactly as added by the source:
variable lower bounds `prod, inv >= 0`, binary domain of `setup`, the
balance equality, the big-M linking inequality, and (capacitated module
only) `prod[t] <= capacity[t]`. -/
def periodOK (m : Model) (r : SolverResult) (t : ℕ) : Bool :=
  decide (0 ≤ r.prodX.getD t 0) &&
  decide (0 ≤ r.invX.getD t 0) &&
  (decide (r.yX.getD t 0 = 0) || decide (r.yX.getD t 0 = 1)) &&
  decide (prevInv m.initial_inventory r.invX t + r.prodX.getD t 0 - m.demand.getD t 0
      = r.invX.getD t 0) &&
  decide (r.prodX.getD t 0 ≤ m.bigM * r.yX.getD t 0) &&
  (match m.cap with
   | none => true
   | some c => decide (r.prodX.getD t 0 ≤ c.getD t 0))

/-- A solver result is feasible for a model when it assigns a value to each
of the `3 T` variables and every period's constraints hold. -/
def feasible (m : Model) (r : SolverResult) : Bool :=
  decide (r.prodX.length = m.T) && decide (r.invX.length = m.T) &&
  decide (r.yX.length = m.T) &&
  (List.range m.T).all (fun t => periodOK m r t)

/-- The objective set by `m.setObjective(cost, GRB.MINIMIZE)`:
`setup_cost * sum(y) + unit_cost * sum(prod) + holding_cost * sum(inv)`. -/
def objective (m : Model) (r : SolverResult) : ℚ :=
  m.setup_cost * r.yX.sum + m.unit_cost * r.prodX.sum + m.holding_cost * r.invX.sum

/-- The documented black-box behaviour of the external solver: whenever it
reports status `GRB.OPTIMAL` (code `2`), the primal values it returns
satisfy every constraint of the submitted model and `ObjVal` is the
objective evaluated at those values. -/
def SolverContract (solver : Model → SolverResult) : Prop :=
  ∀ m : Model, (solver m).status = 2 →
    feasible m (solver m) = true ∧ (solver m).objVal = objective m (solver m)

/-- Python 3 `round` (banker's rounding, half to even), applied by the
result adapter to each `setup` variable value. -/
def pyRound (x : ℚ) : ℤ :=
  if x - ⌊x⌋ < 1/2 then ⌊x⌋
  else if 1/2 < x - ⌊x⌋ then ⌊x⌋ + 1
  else if ⌊x⌋ % 2 = 0 then ⌊x⌋ else ⌊x⌋ + 1

/-- The raw tuple returned by `_solve_core` / `_solve_cap_core`:
production vector, inventory vector, rounded setup flags, and `ObjVal`. -/
structure RawOut where
  prodList : List ℚ
  invList : List ℚ
  setupList : List ℤ
  totalCost : ℚ
deriving DecidableEq

/-- Lines 72-77 of both modules: read back the `T` primal values of each
variable family, round the setup values to integers, and pass `ObjVal`
through. -/
def extractOut (T : ℕ) (r : SolverResult) : RawOut :=
  ⟨(List.range T).map (fun t => r.prodX.getD t 0),
   (List.range T).map (fun t => r.invX.getD t 0),
   (List.range T).map (fun t => pyRound (r.yX.getD t 0)),
   r.objVal⟩

/-- The message of the `RuntimeError` raised on a non-optimal status. -/
def statusMsg (s : ℕ) : String :=
  "Gurobi status " ++ toString s ++ ": optimisation failed"

/-- The message of the `ValueError` raised by `_solve_cap_core` on a
demand/capacity length mismatch. -/
def lengthMsg : String := "demand and capacity must have the same length"

/-- The message of the `ValueError` raised by Python's `max` on an empty
sequence. -/
def emptyMaxMsg : String := "max() arg is an empty sequence"

/-- The model built by `_solve_core`: no capacities, and
`bigM = sum(demand) + initial_inventory` (line 54). -/
def lotModel (demand : List ℚ) (sc uc hc ii : ℚ) : Model :=
  ⟨demand, none, sc, uc, hc, ii, demand.sum + ii⟩

/-- The model built by `_solve_cap_core` once validation passed and
`bigM = max(capacity)` was computed (line 53). -/
def capModel (demand capacity : List ℚ) (sc uc hc ii bigM : ℚ) : Model :=
  ⟨demand, some capacity, sc, uc, hc, ii, bigM⟩

/-- `_solve_core` of `lot_sizing_tool.py`: build the uncapacitated model,
run the solver, fail with a `RuntimeError` on any non-optimal status, and
otherwise unpack the primal values. -/
def solveCore (solver : Model → SolverResult) (demand : List ℚ)
    (sc uc hc ii : ℚ) : Except PyErr RawOut :=
  let T := demand.length
  let r := solver (lotModel demand sc uc hc ii)
  if r.status = 2 then .ok (extractOut T r)
  else .error (.runtimeError (statusMsg r.status))

/-- `_solve_cap_core` of `capacitated_lot_sizing_tool.py`: reject unequal
series lengths before anything else, compute `bigM = max(capacity)` (which
in Python raises `ValueError` on an empty list), then proceed as in the
uncapacitated core with the extra capacity constraints in the model. -/
def solveCapCore (solver : Model → SolverResult) (demand capacity : List ℚ)
    (sc uc hc ii : ℚ) : Except PyErr RawOut :=
  if demand.length ≠ capacity.length then .error (.valueError lengthMsg)
  else
    match capacity.max? with
    | none => .error (.valueError emptyMaxMsg)
    | some bigM =>
      let T := demand.length
      let r := solver (capModel demand capacity sc uc hc ii bigM)
      if r.status = 2 then .ok (extractOut T r)
      else .error (.runtimeError (statusMsg r.status))

/-- The structured result dictionary of the `solve_lot_sizing` and
`solve_cap_lot_sizing` tools, fields in insertion order. -/
structure LotDict where
  production_plan : List ℚ
  inventory : List ℚ
  setup : List ℤ
  total_cost : ℚ
deriving DecidableEq

/-- `solve_lot_sizing`: call the core and shape the four components into
the structured dictionary. -/
def solve_lot_sizing (solver : Model → SolverResult) (demand : List ℚ)
    (sc uc hc ii : ℚ) : Except PyErr LotDict :=
  (solveCore solver demand sc uc hc ii).map
    (fun r => ⟨r.prodList, r.invList, r.setupList, r.totalCost⟩)

/-- `solve_lot_sizing_basic`: call the core and return only
`(production_plan, total_cost)`. -/
def solve_lot_sizing_basic (solver : Model → SolverResult) (demand : List ℚ)
    (sc uc hc ii : ℚ) : Except PyErr (List ℚ × ℚ) :=
  (solveCore solver demand sc uc hc ii).map (fun r => (r.prodList, r.totalCost))

/-- `solve_cap_lot_sizing`: capacitated core, structured dictionary. -/
def solve_cap_lot_sizing (solver : Model → SolverResult)
    (demand capacity : List ℚ) (sc uc hc ii : ℚ) : Except PyErr LotDict :=
  (solveCapCore solver demand capacity sc uc hc ii).map
    (fun r => ⟨r.prodList, r.invList, r.setupList, r.totalCost⟩)

/-- `solve_cap_lot_sizing_basic`: capacitated core, compact pair. -/
def solve_cap_lot_sizing_basic (solver : Model → SolverResult)
    (demand capacity : List ℚ) (sc uc hc ii : ℚ) : Except PyErr (List ℚ × ℚ) :=
  (solveCapCore solver demand capacity sc uc hc ii).map
    (fun r => (r.prodList, r.totalCost))

example : pyRound 0 = 0 := by norm_num [pyRound]
example : pyRound 1 = 1 := by norm_num [pyRound]
example : pyRound (1/2) = 0 := by norm_num [pyRound]
example : pyRound (3/2) = 2 := by norm_num [pyRound]
example : pyRound (7/10) = 1 := by norm_num [pyRound]

/-! ## Helper lemmas -/

theorem pyRound_zero : pyRound 0 = 0 := by norm_num [pyRound]

theorem pyRound_one : pyRound 1 = 1 := by norm_num [pyRound]

/-- Reading back `n` values by index from a list of length `n` recovers the
list, up to the function applied to each entry. -/
theorem range_map_getD {α : Type} (f : ℚ → α) (l : List ℚ) :
    (List.range l.length).map (fun t => f (l.getD t 0)) = l.map f := by
  apply List.ext_getElem
  · simp
  · intro i h1 h2
    simp only [List.getElem_map, List.getElem_range]
    rw [List.getD_eq_getElem l 0 (by simpa using h2)]

/-- Reading back `n` values by index from a list of length `n` recovers the
list. -/
theorem range_map_getD_id (l : List ℚ) :
    (List.range l.length).map (fun t => l.getD t 0) = l := by
  simpa using range_map_getD (fun x => x) l

/-- Unpacking of the `feasible` boolean: lengths plus the per-period
constraints. -/
theorem feasible_spec (m : Model) (r : SolverResult) (hf : feasible m r = true) :
    r.prodX.length = m.T ∧ r.invX.length = m.T ∧ r.yX.length = m.T ∧
    ∀ t, t < m.T →
      0 ≤ r.prodX.getD t 0 ∧ 0 ≤ r.invX.getD t 0 ∧
      (r.yX.getD t 0 = 0 ∨ r.yX.getD t 0 = 1) ∧
      prevInv m.initial_inventory r.invX t + r.prodX.getD t 0 - m.demand.getD t 0
        = r.invX.getD t 0 ∧
      r.prodX.getD t 0 ≤ m.bigM * r.yX.getD t 0 ∧
      ∀ c, m.cap = some c → r.prodX.getD t 0 ≤ c.getD t 0 := by
  simp only [feasible, Bool.and_eq_true, decide_eq_true_eq, List.all_eq_true,
    List.mem_range] at hf
  obtain ⟨⟨⟨h1, h2⟩, h3⟩, h4⟩ := hf
  refine ⟨h1, h2, h3, fun t ht => ?_⟩
  have hp := h4 t ht
  cases hcap : m.cap with
  | none =>
    simp only [periodOK, hcap, Bool.and_eq_true, Bool.or_eq_true,
      decide_eq_true_eq] at hp
    exact ⟨hp.1.1.1.1.1, hp.1.1.1.1.2, hp.1.1.1.2, hp.1.1.2, hp.1.2,
      fun c hc => by simp at hc⟩
  | some c =>
    simp only [periodOK, hcap, Bool.and_eq_true, Bool.or_eq_true,
      decide_eq_true_eq] at hp
    exact ⟨hp.1.1.1.1.1, hp.1.1.1.1.2, hp.1.1.1.2, hp.1.1.2, hp.1.2,
      fun c' hc' => by
        rw [← Option.some_inj.mp hc']
        exact hp.2⟩

/-- On a feasible solver result, the extraction of lines 72-77 returns the
solver vectors verbatim, with `setup` rounded entrywise. -/
theorem extractOut_eq (m : Model) (r : SolverResult) (hf : feasible m r = true) :
    extractOut m.T r = ⟨r.prodX, r.invX, r.yX.map pyRound, r.objVal⟩ := by
  obtain ⟨h1, h2, h3, _⟩ := feasible_spec m r hf
  unfold extractOut
  congr 1
  · rw [← h1, range_map_getD_id]
  · rw [← h2, range_map_getD_id]
  · rw [← h3, range_map_getD pyRound]

/-- Success characterisation of the uncapacitated core. -/
theorem solveCore_ok_iff (solver : Model → SolverResult) (d : List ℚ)
    (sc uc hc ii : ℚ) (out : RawOut) :
    solveCore solver d sc uc hc ii = .ok out ↔
    (solver (lotModel d sc uc hc ii)).status = 2 ∧
      out = extractOut d.length (solver (lotModel d sc uc hc ii)) := by
  simp only [solveCore]
  by_cases h : (solver (lotModel d sc uc hc ii)).status = 2
  · simp [h, eq_comm]
  · simp [h]

/-- Success characterisation of the capacitated core. -/
theorem solveCapCore_ok_iff (solver : Model → SolverResult) (d c : List ℚ)
    (sc uc hc ii : ℚ) (out : RawOut) :
    solveCapCore solver d c sc uc hc ii = .ok out ↔
    d.length = c.length ∧ ∃ B, c.max? = some B ∧
      (solver (capModel d c sc uc hc ii B)).status = 2 ∧
      out = extractOut d.length (solver (capModel d c sc uc hc ii B)) := by
  simp only [solveCapCore]
  by_cases hlen : d.length = c.length
  · rw [if_neg (by simp [hlen])]
    cases hm : c.max? with
    | none => simp [hlen]
    | some B =>
      by_cases hs : (solver (capModel d c sc uc hc ii B)).status = 2
      · simp [hs, hlen, eq_comm]
      · simp [hs, hlen]
  · rw [if_pos hlen]
    simp [hlen]

/-- Pointwise properties at indices below the length transfer to all
members of a list. -/
theorem forall_mem_of_getD {P : ℚ → Prop} (l : List ℚ)
    (h : ∀ t, t < l.length → P (l.getD t 0)) : ∀ x ∈ l, P x := by
  intro x hx
  obtain ⟨i, hi, rfl⟩ := List.mem_iff_getElem.mp hx
  have := h i hi
  rwa [List.getD_eq_getElem l 0 hi] at this

/-- Rounding a list of exact binaries is the identity (as rationals). -/
theorem map_pyRound_binary (l : List ℚ) (h : ∀ x ∈ l, x = 0 ∨ x = 1) :
    l.map (fun x => ((pyRound x : ℤ) : ℚ)) = l := by
  induction l with
  | nil => rfl
  | cons a tl ih =>
    have ha := h a (List.mem_cons_self a tl)
    have htl := ih (fun x hx => h x (List.mem_cons_of_mem a hx))
    rcases ha with rfl | rfl <;>
      simp [htl, pyRound_zero, pyRound_one]

/-- The sum of the rounded setup flags equals the sum of the exact binary
solver values. -/
theorem sum_map_pyRound (l : List ℚ) (h : ∀ x ∈ l, x = 0 ∨ x = 1) :
    ((l.map pyRound).map (fun z : ℤ => (z : ℚ))).sum = l.sum := by
  rw [List.map_map]
  have : ((fun z : ℤ => (z : ℚ)) ∘ pyRound) = fun x => ((pyRound x : ℤ) : ℚ) := rfl
  rw [this, map_pyRound_binary l h]

/-- `pyRound` rounds to a nearest integer: the distance to its output is at
most one half. -/
theorem pyRound_nearest (q : ℚ) : |q - (pyRound q : ℚ)| ≤ 1/2 := by
  have h0 : (⌊q⌋ : ℚ) ≤ q := Int.floor_le q
  have h1 : q < ⌊q⌋ + 1 := Int.lt_floor_add_one q
  unfold pyRound
  by_cases hlt : q - ⌊q⌋ < 1/2
  · rw [if_pos hlt, abs_le]
    constructor <;> linarith
  · rw [if_neg hlt]
    by_cases hgt : 1/2 < q - ⌊q⌋
    · rw [if_pos hgt]
      push_cast
      rw [abs_le]
      constructor <;> linarith
    · rw [if_neg hgt]
      have heq : q - ⌊q⌋ = 1/2 := le_antisymm (not_lt.mp hgt) (not_lt.mp hlt)
      by_cases hev : ⌊q⌋ % 2 = 0
      · rw [if_pos hev, abs_le]
        constructor <;> linarith
      · rw [if_neg hev]
        push_cast
        rw [abs_le]
        constructor <;> linarith

/-- Full unpacking of a successful uncapacitated call under the solver
contract: the solver reported optimal, its values are feasible for the
built model, and the returned tuple is those values with setups rounded. -/
theorem solveCore_ok_spec (solver : Model → SolverResult)
    (hsol : SolverContract solver) (d : List ℚ) (sc uc hc ii : ℚ) (out : RawOut)
    (h : solveCore solver d sc uc hc ii = .ok out) :
    (solver (lotModel d sc uc hc ii)).status = 2 ∧
    feasible (lotModel d sc uc hc ii) (solver (lotModel d sc uc hc ii)) = true ∧
    out = ⟨(solver (lotModel d sc uc hc ii)).prodX,
           (solver (lotModel d sc uc hc ii)).invX,
           (solver (lotModel d sc uc hc ii)).yX.map pyRound,
           (solver (lotModel d sc uc hc ii)).objVal⟩ ∧
    (solver (lotModel d sc uc hc ii)).objVal
      = objective (lotModel d sc uc hc ii) (solver (lotModel d sc uc hc ii)) := by
  obtain ⟨hs, hout⟩ := (solveCore_ok_iff solver d sc uc hc ii out).mp h
  obtain ⟨hf, hobj⟩ := hsol _ hs
  refine ⟨hs, hf, ?_, hobj⟩
  rw [hout]
  exact extractOut_eq _ _ hf

/-- Full unpacking of a successful capacitated call under the solver
contract. -/
theorem solveCapCore_ok_spec (solver : Model → SolverResult)
    (hsol : SolverContract solver) (d c : List ℚ) (sc uc hc ii : ℚ)
    (out : RawOut) (h : solveCapCore solver d c sc uc hc ii = .ok out) :
    d.length = c.length ∧ ∃ B, c.max? = some B ∧
      (solver (capModel d c sc uc hc ii B)).status = 2 ∧
      feasible (capModel d c sc uc hc ii B) (solver (capModel d c sc uc hc ii B)) = true ∧
      out = ⟨(solver (capModel d c sc uc hc ii B)).prodX,
             (solver (capModel d c sc uc hc ii B)).invX,
             (solver (capModel d c sc uc hc ii B)).yX.map pyRound,
             (solver (capModel d c sc uc hc ii B)).objVal⟩ ∧
      (solver (capModel d c sc uc hc ii B)).objVal
        = objective (capModel d c sc uc hc ii B) (solver (capModel d c sc uc hc ii B)) := by
  obtain ⟨hlen, B, hB, hs, hout⟩ := (solveCapCore_ok_iff solver d c sc uc hc ii out).mp h
  obtain ⟨hf, hobj⟩ := hsol _ hs
  exact ⟨hlen, B, hB, hs, hf, by rw [hout]; exact extractOut_eq _ _ hf, hobj⟩

/-- The balance invariant of the specification, on a returned tuple:
three series as long as the demand series; for every period, ending
inventory equals the previous inventory (initial inventory at `t = 0`)
plus production minus demand; inventory and production non-negative. -/
def BalanceInvariant (demand : List ℚ) (init : ℚ) (o : RawOut) : Prop :=
  o.prodList.length = demand.length ∧ o.invList.length = demand.length ∧
  ∀ t, t < demand.length →
    o.invList.getD t 0
      = prevInv init o.invList t + o.prodList.getD t 0 - demand.getD t 0 ∧
    0 ≤ o.invList.getD t 0 ∧ 0 ≤ o.prodList.getD t 0

/-- Any feasible solver result, once extracted, satisfies the balance
invariant of the model it solved. -/
theorem balance_of_feasible (m : Model) (r : SolverResult)
    (hf : feasible m r = true) :
    BalanceInvariant m.demand m.initial_inventory
      ⟨r.prodX, r.invX, r.yX.map pyRound, r.objVal⟩ := by
  obtain ⟨h1, h2, _, hper⟩ := feasible_spec m r hf
  refine ⟨h1, h2, fun t ht => ?_⟩
  obtain ⟨hp, hv, _, hbal, _, _⟩ := hper t ht
  exact ⟨hbal.symm, hv, hp⟩

/-- A concrete deterministic solver used to exercise the theorems: it
answers optimally, with feasible values, on three specific models and
reports status `3` anywhere else. -/
def wSolver : Model → SolverResult := fun m =>
  if m = lotModel [] 0 0 0 0 then ⟨2, [], [], [], 0⟩
  else if m = lotModel [1] 0 0 0 0 ∨ m = capModel [1] [2] 0 0 0 0 2 then
    ⟨2, [1], [0], [1], 0⟩
  else ⟨3, [], [], [], 0⟩

theorem wSolver_empty : wSolver (lotModel [] 0 0 0 0) = ⟨2, [], [], [], 0⟩ := by
  unfold wSolver
  rw [if_pos rfl]

theorem wSolver_lot : wSolver (lotModel [1] 0 0 0 0) = ⟨2, [1], [0], [1], 0⟩ := by
  unfold wSolver
  rw [if_neg (by simp [lotModel]), if_pos (Or.inl rfl)]

theorem wSolver_cap : wSolver (capModel [1] [2] 0 0 0 0 2) = ⟨2, [1], [0], [1], 0⟩ := by
  unfold wSolver
  rw [if_neg (by simp [lotModel, capModel]), if_pos (Or.inr rfl)]

theorem wSolver_contract : SolverContract wSolver := by
  intro m hs
  by_cases h0 : m = lotModel [] 0 0 0 0
  · subst h0
    rw [wSolver_empty]
    constructor
    · simp [feasible, Model.T, lotModel]
    · simp [objective]
  · by_cases h1 : m = lotModel [1] 0 0 0 0
    · subst h1
      rw [wSolver_lot]
      constructor
      · simp [feasible, Model.T, lotModel, periodOK, prevInv, List.range_succ]
      · simp [objective, lotModel]
    · by_cases h2 : m = capModel [1] [2] 0 0 0 0 2
      · subst h2
        rw [wSolver_cap]
        constructor
        · simp [feasible, Model.T, capModel, periodOK, prevInv, List.range_succ]
        · simp [objective, capModel]
      · exfalso
        have : wSolver m = ⟨3, [], [], [], 0⟩ := by
          unfold wSolver
          rw [if_neg h0, if_neg (by tauto)]
        rw [this] at hs
        simp at hs

theorem wCore_eval : solveCore wSolver [1] 0 0 0 0 = .ok ⟨[1], [0], [1], 0⟩ := by
  unfold solveCore
  rw [wSolver_lot]
  simp [extractOut, List.range_succ, pyRound_one]

theorem wCapCore_eval :
    solveCapCore wSolver [1] [2] 0 0 0 0 = .ok ⟨[1], [0], [1], 0⟩ := by
  apply (solveCapCore_ok_iff wSolver [1] [2] 0 0 0 0 _).mpr
  refine ⟨rfl, 2, rfl, ?_, ?_⟩
  · rw [wSolver_cap]
  · rw [wSolver_cap]
    simp [extractOut, List.range_succ, pyRound_one]

/-- C1: For every accepted input, both lot-sizing operations return an
inventory trajectory satisfying the balance invariant: for every period
`t`, `inventory[t] = prev_inventory + production[t] - demand[t]`, where
`prev_inventory` is the initial inventory at `t = 0` and `inventory[t-1]`
otherwise, and `inventory[t] >= 0` and `production[t] >= 0` for every
`t`. -/
theorem c1_balance_invariant (solver : Model → SolverResult)
    (hsol : SolverContract solver) (d c : List ℚ) (sc uc hc ii : ℚ)
    (out1 out2 : RawOut)
    (h1 : solveCore solver d sc uc hc ii = .ok out1)
    (h2 : solveCapCore solver d c sc uc hc ii = .ok out2) :
    BalanceInvariant d ii out1 ∧ BalanceInvariant d ii out2 := by
  obtain ⟨_, hf1, hout1, _⟩ := solveCore_ok_spec solver hsol d sc uc hc ii out1 h1
  obtain ⟨_, B, _, _, hf2, hout2, _⟩ :=
    solveCapCore_ok_spec solver hsol d c sc uc hc ii out2 h2
  constructor
  · rw [hout1]
    exact balance_of_feasible _ _ hf1
  · rw [hout2]
    exact balance_of_feasible _ _ hf2

theorem c1_balance_invariant_witness :
    SolverContract wSolver ∧
    solveCore wSolver [1] 0 0 0 0 = .ok ⟨[1], [0], [1], 0⟩ ∧
    solveCapCore wSolver [1] [2] 0 0 0 0 = .ok ⟨[1], [0], [1], 0⟩ ∧
    (BalanceInvariant [1] 0 ⟨[1], [0], [1], 0⟩ ∧
     BalanceInvariant [1] 0 ⟨[1], [0], [1], 0⟩) :=
  ⟨wSolver_contract, wCore_eval, wCapCore_eval,
   c1_balance_invariant wSolver wSolver_contract [1] [2] 0 0 0 0 _ _
     wCore_eval wCapCore_eval⟩

/-- The value of `(l.map pyRound).getD` inside the valid index range. -/
theorem getD_map_pyRound (l : List ℚ) (t : ℕ) (ht : t < l.length) :
    (l.map pyRound).getD t 0 = pyRound (l.getD t 0) := by
  rw [List.getD_eq_getElem _ 0 (by simpa using ht), List.getD_eq_getElem l 0 ht,
    List.getElem_map]

/-- C2: The uncapacitated formulation imposes, for every period `t`, the
linking constraint `production[t] <= BigM * setup[t]` with
`BigM = sum(demand) + initial_inventory` computed per instance, so that in
every returned solution `setup[t] = 1` whenever `production[t] > 0`, and
`production[t] <= BigM`. -/
theorem c2_bigM_linking (solver : Model → SolverResult)
    (hsol : SolverContract solver) (d : List ℚ) (sc uc hc ii : ℚ)
    (hd : ∀ x ∈ d, 0 ≤ x) (hii : 0 ≤ ii) (out : RawOut)
    (h : solveCore solver d sc uc hc ii = .ok out) :
    (lotModel d sc uc hc ii).bigM = d.sum + ii ∧
    (∀ r : SolverResult, feasible (lotModel d sc uc hc ii) r = true →
      ∀ t, t < d.length → r.prodX.getD t 0 ≤ (d.sum + ii) * r.yX.getD t 0) ∧
    ∀ t, t < d.length →
      (0 < out.prodList.getD t 0 → out.setupList.getD t 0 = 1) ∧
      out.prodList.getD t 0 ≤ d.sum + ii := by
  have hM : (0:ℚ) ≤ d.sum + ii := add_nonneg (List.sum_nonneg hd) hii
  refine ⟨rfl, fun r hf t ht => ?_, ?_⟩
  · obtain ⟨_, _, _, hper⟩ := feasible_spec _ r hf
    exact (hper t ht).2.2.2.2.1
  · obtain ⟨_, hf, hout, _⟩ := solveCore_ok_spec solver hsol d sc uc hc ii out h
    obtain ⟨hpl, _, hyl, hper⟩ := feasible_spec _ _ hf
    intro t ht
    obtain ⟨hp, _, hy, _, hlink, _⟩ := hper t ht
    rw [hout]
    rcases hy with hy0 | hy1
    · rw [hy0, mul_zero] at hlink
      have hz : (solver (lotModel d sc uc hc ii)).prodX.getD t 0 = 0 :=
        le_antisymm hlink hp
      constructor
      · intro hpos
        simp only [hz] at hpos
        exact absurd hpos (lt_irrefl 0)
      · simp only [hz]
        exact hM
    · constructor
      · intro _
        show ((solver (lotModel d sc uc hc ii)).yX.map pyRound).getD t 0 = 1
        rw [getD_map_pyRound _ t (by rw [hyl]; exact ht), hy1, pyRound_one]
      · show (solver (lotModel d sc uc hc ii)).prodX.getD t 0 ≤ d.sum + ii
        calc (solver (lotModel d sc uc hc ii)).prodX.getD t 0
            ≤ (lotModel d sc uc hc ii).bigM
                * (solver (lotModel d sc uc hc ii)).yX.getD t 0 := hlink
          _ = d.sum + ii := by rw [hy1, mul_one]; rfl

theorem c2_bigM_linking_witness :
    SolverContract wSolver ∧ (∀ x ∈ ([1] : List ℚ), 0 ≤ x) ∧ (0:ℚ) ≤ 0 ∧
    solveCore wSolver [1] 0 0 0 0 = .ok ⟨[1], [0], [1], 0⟩ ∧
    ((lotModel [1] 0 0 0 0).bigM = ([1] : List ℚ).sum + 0 ∧
     (∀ r : SolverResult, feasible (lotModel [1] 0 0 0 0) r = true →
       ∀ t, t < ([1] : List ℚ).length →
         r.prodX.getD t 0 ≤ (([1] : List ℚ).sum + 0) * r.yX.getD t 0) ∧
     ∀ t, t < ([1] : List ℚ).length →
       (0 < (⟨[1], [0], [1], 0⟩ : RawOut).prodList.getD t 0 →
         (⟨[1], [0], [1], 0⟩ : RawOut).setupList.getD t 0 = 1) ∧
       (⟨[1], [0], [1], 0⟩ : RawOut).prodList.getD t 0 ≤ ([1] : List ℚ).sum + 0) :=
  ⟨wSolver_contract, by norm_num, le_refl 0, wCore_eval,
   c2_bigM_linking wSolver wSolver_contract [1] 0 0 0 0 (by norm_num)
     (le_refl 0) _ wCore_eval⟩

/-- Pointwise comparison of the capacitated and uncapacitated period
constraints over the same big-M: the capacitated one is the uncapacitated
one plus the capacity bound. -/
theorem periodOK_cap_iff (d c : List ℚ) (sc uc hc ii B : ℚ) (r : SolverResult)
    (t : ℕ) :
    periodOK (capModel d c sc uc hc ii B) r t = true ↔
    (periodOK ⟨d, none, sc, uc, hc, ii, B⟩ r t = true ∧
      r.prodX.getD t 0 ≤ c.getD t 0) := by
  simp only [periodOK, capModel, Bool.and_eq_true, Bool.or_eq_true,
    decide_eq_true_eq]
  tauto

/-- C3: The capacitated formulation is identical to the uncapacitated one
except that it additionally imposes `production[t] <= capacity[t]` for
every period and redefines `BigM` as `max(capacity)`; consequently every
returned production plan respects the capacities. -/
theorem c3_capacitated_refinement :
    (∀ (d c : List ℚ) (sc uc hc ii B : ℚ) (r : SolverResult),
      feasible (capModel d c sc uc hc ii B) r = true ↔
      (feasible ⟨d, none, sc, uc, hc, ii, B⟩ r = true ∧
        ∀ t, t < d.length → r.prodX.getD t 0 ≤ c.getD t 0)) ∧
    (∀ (solver : Model → SolverResult) (d c : List ℚ) (sc uc hc ii B : ℚ),
      d.length = c.length → c.max? = some B →
      solveCapCore solver d c sc uc hc ii =
        (if (solver (capModel d c sc uc hc ii B)).status = 2 then
          .ok (extractOut d.length (solver (capModel d c sc uc hc ii B)))
        else
          .error (.runtimeError
            (statusMsg (solver (capModel d c sc uc hc ii B)).status))) ∧
      (capModel d c sc uc hc ii B).bigM = B) ∧
    ∀ (solver : Model → SolverResult), SolverContract solver →
      ∀ (d c : List ℚ) (sc uc hc ii : ℚ) (out : RawOut),
        solveCapCore solver d c sc uc hc ii = .ok out →
        ∀ t, t < d.length → out.prodList.getD t 0 ≤ c.getD t 0 := by
  refine ⟨?_, ?_, ?_⟩
  · intro d c sc uc hc ii B r
    simp only [feasible, Model.T, capModel, Bool.and_eq_true, decide_eq_true_eq,
      List.all_eq_true, List.mem_range]
    constructor
    · rintro ⟨⟨⟨h1, h2⟩, h3⟩, h4⟩
      refine ⟨⟨⟨⟨h1, h2⟩, h3⟩, fun t ht => ?_⟩, fun t ht => ?_⟩
      · exact ((periodOK_cap_iff d c sc uc hc ii B r t).mp (h4 t ht)).1
      · exact ((periodOK_cap_iff d c sc uc hc ii B r t).mp (h4 t ht)).2
    · rintro ⟨⟨⟨⟨h1, h2⟩, h3⟩, h4⟩, h5⟩
      exact ⟨⟨⟨h1, h2⟩, h3⟩, fun t ht =>
        (periodOK_cap_iff d c sc uc hc ii B r t).mpr ⟨h4 t ht, h5 t ht⟩⟩
  · intro solver d c sc uc hc ii B hlen hB
    refine ⟨?_, rfl⟩
    unfold solveCapCore
    rw [if_neg (by simp [hlen]), hB]
  · intro solver hsol d c sc uc hc ii out h t ht
    obtain ⟨_, B, _, _, hf, hout, _⟩ :=
      solveCapCore_ok_spec solver hsol d c sc uc hc ii out h
    obtain ⟨_, _, _, hper⟩ := feasible_spec _ _ hf
    obtain ⟨_, _, _, _, _, hcap⟩ := hper t ht
    rw [hout]
    exact hcap c rfl

theorem c3_capacitated_refinement_witness :
    (feasible (capModel [1] [2] 0 0 0 0 2) ⟨2, [1], [0], [1], 0⟩ = true ↔
      (feasible ⟨[1], none, 0, 0, 0, 0, 2⟩ ⟨2, [1], [0], [1], 0⟩ = true ∧
        ∀ t, t < ([1] : List ℚ).length →
          (⟨2, [1], [0], [1], 0⟩ : SolverResult).prodX.getD t 0
            ≤ ([2] : List ℚ).getD t 0)) ∧
    (([1] : List ℚ).length = ([2] : List ℚ).length) ∧
    (([2] : List ℚ).max? = some 2) ∧
    (∀ t, t < ([1] : List ℚ).length →
      (⟨[1], [0], [1], 0⟩ : RawOut).prodList.getD t 0 ≤ ([2] : List ℚ).getD t 0) :=
  ⟨c3_capacitated_refinement.1 [1] [2] 0 0 0 0 2 ⟨2, [1], [0], [1], 0⟩,
   rfl, rfl,
   c3_capacitated_refinement.2.2 wSolver wSolver_contract [1] [2] 0 0 0 0
     ⟨[1], [0], [1], 0⟩ wCapCore_eval⟩

/-- C4: For every pair of demand and capacity series of unequal lengths,
the capacitated operations fail with the length-mismatch `ValueError`
whatever the solver would answer — the outcome does not depend on the
solver, so no model is built and no solver call happens. -/
theorem c4_length_mismatch (d c : List ℚ) (sc uc hc ii : ℚ)
    (h : d.length ≠ c.length) :
    ∀ solver : Model → SolverResult,
      solveCapCore solver d c sc uc hc ii = .error (.valueError lengthMsg) ∧
      solve_cap_lot_sizing solver d c sc uc hc ii
        = .error (.valueError lengthMsg) ∧
      solve_cap_lot_sizing_basic solver d c sc uc hc ii
        = .error (.valueError lengthMsg) := by
  intro solver
  have hcore : solveCapCore solver d c sc uc hc ii
      = .error (.valueError lengthMsg) := by
    unfold solveCapCore
    rw [if_pos h]
  refine ⟨hcore, ?_, ?_⟩
  · unfold solve_cap_lot_sizing
    rw [hcore]
    rfl
  · unfold solve_cap_lot_sizing_basic
    rw [hcore]
    rfl

theorem c4_length_mismatch_witness :
    (([1, 2, 3, 4] : List ℚ).length ≠ ([1, 2, 3] : List ℚ).length) ∧
    (solveCapCore wSolver [1, 2, 3, 4] [1, 2, 3] 0 0 0 0
        = .error (.valueError lengthMsg) ∧
     solve_cap_lot_sizing wSolver [1, 2, 3, 4] [1, 2, 3] 0 0 0 0
        = .error (.valueError lengthMsg) ∧
     solve_cap_lot_sizing_basic wSolver [1, 2, 3, 4] [1, 2, 3] 0 0 0 0
        = .error (.valueError lengthMsg)) :=
  ⟨by simp,
   c4_length_mismatch [1, 2, 3, 4] [1, 2, 3] 0 0 0 0 (by simp) wSolver⟩

/-- C5: Whenever the solver does not report a provably optimal status, each
operation fails with the `RuntimeError` carrying that status code, and the
entry points return exactly the core's fault (nothing is caught or
retried, no partial result is produced); when the solver reports optimal,
no error is raised. -/
theorem c5_solver_status (solver : Model → SolverResult) (d c : List ℚ)
    (sc uc hc ii B : ℚ) (hlen : d.length = c.length) (hB : c.max? = some B) :
    ((solver (lotModel d sc uc hc ii)).status ≠ 2 →
      solveCore solver d sc uc hc ii
          = .error (.runtimeError (statusMsg (solver (lotModel d sc uc hc ii)).status)) ∧
      solve_lot_sizing solver d sc uc hc ii
          = .error (.runtimeError (statusMsg (solver (lotModel d sc uc hc ii)).status)) ∧
      solve_lot_sizing_basic solver d sc uc hc ii
          = .error (.runtimeError (statusMsg (solver (lotModel d sc uc hc ii)).status))) ∧
    ((solver (lotModel d sc uc hc ii)).status = 2 →
      ∃ out, solveCore solver d sc uc hc ii = .ok out) ∧
    ((solver (capModel d c sc uc hc ii B)).status ≠ 2 →
      solveCapCore solver d c sc uc hc ii
          = .error (.runtimeError (statusMsg (solver (capModel d c sc uc hc ii B)).status)) ∧
      solve_cap_lot_sizing solver d c sc uc hc ii
          = .error (.runtimeError (statusMsg (solver (capModel d c sc uc hc ii B)).status)) ∧
      solve_cap_lot_sizing_basic solver d c sc uc hc ii
          = .error (.runtimeError (statusMsg (solver (capModel d c sc uc hc ii B)).status))) ∧
    ((solver (capModel d c sc uc hc ii B)).status = 2 →
      ∃ out, solveCapCore solver d c sc uc hc ii = .ok out) := by
  have hcap : ∀ e : Except PyErr RawOut,
      solveCapCore solver d c sc uc hc ii = e ↔
      (if (solver (capModel d c sc uc hc ii B)).status = 2 then
        Except.ok (extractOut d.length (solver (capModel d c sc uc hc ii B)))
      else
        Except.error (PyErr.runtimeError
          (statusMsg (solver (capModel d c sc uc hc ii B)).status))) = e := by
    intro e
    unfold solveCapCore
    rw [if_neg (by simp [hlen]), hB]
  refine ⟨?_, ?_, ?_, ?_⟩
  · intro hs
    have hcore : solveCore solver d sc uc hc ii
        = .error (.runtimeError (statusMsg (solver (lotModel d sc uc hc ii)).status)) := by
      unfold solveCore
      rw [if_neg hs]
    exact ⟨hcore,
      by unfold solve_lot_sizing; rw [hcore]; rfl,
      by unfold solve_lot_sizing_basic; rw [hcore]; rfl⟩
  · intro hs
    refine ⟨extractOut d.length (solver (lotModel d sc uc hc ii)), ?_⟩
    unfold solveCore
    rw [if_pos hs]
  · intro hs
    have hcore : solveCapCore solver d c sc uc hc ii
        = .error (.runtimeError (statusMsg (solver (capModel d c sc uc hc ii B)).status)) := by
      rw [hcap]
      rw [if_neg hs]
    exact ⟨hcore,
      by unfold solve_cap_lot_sizing; rw [hcore]; rfl,
      by unfold solve_cap_lot_sizing_basic; rw [hcore]; rfl⟩
  · intro hs
    refine ⟨extractOut d.length (solver (capModel d c sc uc hc ii B)), ?_⟩
    rw [hcap]
    rw [if_pos hs]

theorem c5_solver_status_witness :
    (([1] : List ℚ).length = ([2] : List ℚ).length) ∧
    (([2] : List ℚ).max? = some 2) ∧
    (((wSolver (lotModel [1] 0 0 0 0)).status = 2 →
       ∃ out, solveCore wSolver [1] 0 0 0 0 = .ok out) ∧
     ((wSolver (capModel [1] [2] 0 0 0 0 2)).status = 2 →
       ∃ out, solveCapCore wSolver [1] [2] 0 0 0 0 = .ok out)) :=
  ⟨rfl, rfl,
   (c5_solver_status wSolver [1] [2] 0 0 0 0 2 rfl rfl).2.1,
   (c5_solver_status wSolver [1] [2] 0 0 0 0 2 rfl rfl).2.2.2⟩

/-- C6: On every successful call, the result adapter rounds each setup
value to the nearest integer (distance at most one half), passes the
production plan, inventory trajectory and objective value through
unchanged, and the three returned series all have length `T`; the total
cost is exactly the solver's reported objective value. -/
theorem c6_result_adapter (solver : Model → SolverResult)
    (hsol : SolverContract solver) (d c : List ℚ) (sc uc hc ii : ℚ)
    (out1 out2 : RawOut)
    (h1 : solveCore solver d sc uc hc ii = .ok out1)
    (h2 : solveCapCore solver d c sc uc hc ii = .ok out2) :
    (out1.prodList = (solver (lotModel d sc uc hc ii)).prodX ∧
     out1.invList = (solver (lotModel d sc uc hc ii)).invX ∧
     out1.setupList = (solver (lotModel d sc uc hc ii)).yX.map pyRound ∧
     out1.totalCost = (solver (lotModel d sc uc hc ii)).objVal ∧
     out1.prodList.length = d.length ∧ out1.invList.length = d.length ∧
     out1.setupList.length = d.length) ∧
    (∃ B, c.max? = some B ∧
      out2.prodList = (solver (capModel d c sc uc hc ii B)).prodX ∧
      out2.invList = (solver (capModel d c sc uc hc ii B)).invX ∧
      out2.setupList = (solver (capModel d c sc uc hc ii B)).yX.map pyRound ∧
      out2.totalCost = (solver (capModel d c sc uc hc ii B)).objVal ∧
      out2.prodList.length = d.length ∧ out2.invList.length = d.length ∧
      out2.setupList.length = d.length) ∧
    ∀ q : ℚ, |q - (pyRound q : ℚ)| ≤ 1/2 := by
  obtain ⟨_, hf1, hout1, _⟩ := solveCore_ok_spec solver hsol d sc uc hc ii out1 h1
  obtain ⟨_, B, hB, _, hf2, hout2, _⟩ :=
    solveCapCore_ok_spec solver hsol d c sc uc hc ii out2 h2
  obtain ⟨hp1, hv1, hy1, _⟩ := feasible_spec _ _ hf1
  obtain ⟨hp2, hv2, hy2, _⟩ := feasible_spec _ _ hf2
  refine ⟨?_, ⟨B, hB, ?_⟩, pyRound_nearest⟩
  · rw [hout1]
    exact ⟨rfl, rfl, rfl, rfl, hp1, hv1, by simpa using hy1⟩
  · rw [hout2]
    exact ⟨rfl, rfl, rfl, rfl, hp2, hv2, by simpa using hy2⟩

theorem c6_result_adapter_witness :
    SolverContract wSolver ∧
    solveCore wSolver [1] 0 0 0 0 = .ok ⟨[1], [0], [1], 0⟩ ∧
    solveCapCore wSolver [1] [2] 0 0 0 0 = .ok ⟨[1], [0], [1], 0⟩ ∧
    (((⟨[1], [0], [1], 0⟩ : RawOut).prodList
        = (wSolver (lotModel [1] 0 0 0 0)).prodX ∧
      (⟨[1], [0], [1], 0⟩ : RawOut).invList
        = (wSolver (lotModel [1] 0 0 0 0)).invX ∧
      (⟨[1], [0], [1], 0⟩ : RawOut).setupList
        = (wSolver (lotModel [1] 0 0 0 0)).yX.map pyRound ∧
      (⟨[1], [0], [1], 0⟩ : RawOut).totalCost
        = (wSolver (lotModel [1] 0 0 0 0)).objVal ∧
      (⟨[1], [0], [1], 0⟩ : RawOut).prodList.length = ([1] : List ℚ).length ∧
      (⟨[1], [0], [1], 0⟩ : RawOut).invList.length = ([1] : List ℚ).length ∧
      (⟨[1], [0], [1], 0⟩ : RawOut).setupList.length = ([1] : List ℚ).length) ∧
     (∃ B, ([2] : List ℚ).max? = some B ∧
       (⟨[1], [0], [1], 0⟩ : RawOut).prodList
         = (wSolver (capModel [1] [2] 0 0 0 0 B)).prodX ∧
       (⟨[1], [0], [1], 0⟩ : RawOut).invList
         = (wSolver (capModel [1] [2] 0 0 0 0 B)).invX ∧
       (⟨[1], [0], [1], 0⟩ : RawOut).setupList
         = (wSolver (capModel [1] [2] 0 0 0 0 B)).yX.map pyRound ∧
       (⟨[1], [0], [1], 0⟩ : RawOut).totalCost
         = (wSolver (capModel [1] [2] 0 0 0 0 B)).objVal ∧
       (⟨[1], [0], [1], 0⟩ : RawOut).prodList.length = ([1] : List ℚ).length ∧
       (⟨[1], [0], [1], 0⟩ : RawOut).invList.length = ([1] : List ℚ).length ∧
       (⟨[1], [0], [1], 0⟩ : RawOut).setupList.length = ([1] : List ℚ).length) ∧
     ∀ q : ℚ, |q - (pyRound q : ℚ)| ≤ 1/2) :=
  ⟨wSolver_contract, wCore_eval, wCapCore_eval,
   c6_result_adapter wSolver wSolver_contract [1] [2] 0 0 0 0 _ _
     wCore_eval wCapCore_eval⟩

/-- C7: On every successful call, the returned total cost equals
`setup_cost * sum(setup) + unit_cost * sum(production) +
holding_cost * sum(inventory)` computed over the returned (rounded)
series — exactly, since the embedding is exact rational arithmetic. -/
theorem c7_total_cost (solver : Model → SolverResult)
    (hsol : SolverContract solver) (d c : List ℚ) (sc uc hc ii : ℚ)
    (out1 out2 : RawOut)
    (h1 : solveCore solver d sc uc hc ii = .ok out1)
    (h2 : solveCapCore solver d c sc uc hc ii = .ok out2) :
    out1.totalCost
      = sc * (out1.setupList.map (fun z : ℤ => (z : ℚ))).sum
        + uc * out1.prodList.sum + hc * out1.invList.sum ∧
    out2.totalCost
      = sc * (out2.setupList.map (fun z : ℤ => (z : ℚ))).sum
        + uc * out2.prodList.sum + hc * out2.invList.sum := by
  obtain ⟨_, hf1, hout1, hobj1⟩ := solveCore_ok_spec solver hsol d sc uc hc ii out1 h1
  obtain ⟨_, B, hB, _, hf2, hout2, hobj2⟩ :=
    solveCapCore_ok_spec solver hsol d c sc uc hc ii out2 h2
  obtain ⟨_, _, hy1, hper1⟩ := feasible_spec _ _ hf1
  obtain ⟨_, _, hy2, hper2⟩ := feasible_spec _ _ hf2
  have hb1 : ∀ x ∈ (solver (lotModel d sc uc hc ii)).yX, x = 0 ∨ x = 1 := by
    apply forall_mem_of_getD
    intro t ht
    exact (hper1 t (by rw [← hy1]; exact ht)).2.2.1
  have hb2 : ∀ x ∈ (solver (capModel d c sc uc hc ii B)).yX, x = 0 ∨ x = 1 := by
    apply forall_mem_of_getD
    intro t ht
    exact (hper2 t (by rw [← hy2]; exact ht)).2.2.1
  constructor
  · have e1 : out1.totalCost = (solver (lotModel d sc uc hc ii)).objVal := by
      rw [hout1]
    have e2 : out1.setupList = (solver (lotModel d sc uc hc ii)).yX.map pyRound := by
      rw [hout1]
    have e3 : out1.prodList = (solver (lotModel d sc uc hc ii)).prodX := by
      rw [hout1]
    have e4 : out1.invList = (solver (lotModel d sc uc hc ii)).invX := by
      rw [hout1]
    rw [e1, e2, e3, e4, hobj1, sum_map_pyRound _ hb1]
    rfl
  · have e1 : out2.totalCost = (solver (capModel d c sc uc hc ii B)).objVal := by
      rw [hout2]
    have e2 : out2.setupList = (solver (capModel d c sc uc hc ii B)).yX.map pyRound := by
      rw [hout2]
    have e3 : out2.prodList = (solver (capModel d c sc uc hc ii B)).prodX := by
      rw [hout2]
    have e4 : out2.invList = (solver (capModel d c sc uc hc ii B)).invX := by
      rw [hout2]
    rw [e1, e2, e3, e4, hobj2, sum_map_pyRound _ hb2]
    rfl

theorem c7_total_cost_witness :
    SolverContract wSolver ∧
    solveCore wSolver [1] 0 0 0 0 = .ok ⟨[1], [0], [1], 0⟩ ∧
    solveCapCore wSolver [1] [2] 0 0 0 0 = .ok ⟨[1], [0], [1], 0⟩ ∧
    ((⟨[1], [0], [1], 0⟩ : RawOut).totalCost
        = 0 * ((⟨[1], [0], [1], 0⟩ : RawOut).setupList.map (fun z : ℤ => (z : ℚ))).sum
          + 0 * (⟨[1], [0], [1], 0⟩ : RawOut).prodList.sum
          + 0 * (⟨[1], [0], [1], 0⟩ : RawOut).invList.sum ∧
     (⟨[1], [0], [1], 0⟩ : RawOut).totalCost
        = 0 * ((⟨[1], [0], [1], 0⟩ : RawOut).setupList.map (fun z : ℤ => (z : ℚ))).sum
          + 0 * (⟨[1], [0], [1], 0⟩ : RawOut).prodList.sum
          + 0 * (⟨[1], [0], [1], 0⟩ : RawOut).invList.sum) :=
  ⟨wSolver_contract, wCore_eval, wCapCore_eval,
   c7_total_cost wSolver wSolver_contract [1] [2] 0 0 0 0 _ _
     wCore_eval wCapCore_eval⟩

/-- C8: With both series empty the equal-length validation passes but
`max(capacity)` fails: the capacitated core fails, independently of the
solver, with the empty-sequence `ValueError`, which is neither the
length-mismatch validation error nor an optimisation `RuntimeError`; the
uncapacitated core accepts an empty demand series and, whenever the solver
reports optimal, returns four empty/zero outputs. -/
theorem c8_empty_series (solver : Model → SolverResult)
    (hsol : SolverContract solver) (sc uc hc ii : ℚ)
    (hopt : (solver (lotModel [] sc uc hc ii)).status = 2) :
    (∀ (s : Model → SolverResult) (sc' uc' hc' ii' : ℚ),
        solveCapCore s [] [] sc' uc' hc' ii'
          = .error (.valueError emptyMaxMsg)) ∧
    PyErr.valueError emptyMaxMsg ≠ PyErr.valueError lengthMsg ∧
    (∀ msg, PyErr.valueError emptyMaxMsg ≠ PyErr.runtimeError msg) ∧
    (lotModel [] sc uc hc ii).bigM = ii ∧
    solveCore solver [] sc uc hc ii = .ok ⟨[], [], [], 0⟩ ∧
    solve_lot_sizing solver [] sc uc hc ii = .ok ⟨[], [], [], 0⟩ := by
  obtain ⟨hf, hobj⟩ := hsol _ hopt
  obtain ⟨hp, hv, hy, _⟩ := feasible_spec _ _ hf
  have hpe : (solver (lotModel [] sc uc hc ii)).prodX = [] :=
    List.eq_nil_of_length_eq_zero hp
  have hve : (solver (lotModel [] sc uc hc ii)).invX = [] :=
    List.eq_nil_of_length_eq_zero hv
  have hye : (solver (lotModel [] sc uc hc ii)).yX = [] :=
    List.eq_nil_of_length_eq_zero hy
  have hobj0 : (solver (lotModel [] sc uc hc ii)).objVal = 0 := by
    rw [hobj]
    unfold objective
    rw [hpe, hve, hye]
    simp
  have hcore : solveCore solver [] sc uc hc ii = .ok ⟨[], [], [], 0⟩ := by
    unfold solveCore
    rw [if_pos hopt]
    simp [extractOut, hobj0]
  refine ⟨?_, ?_, fun msg => by simp, ?_, hcore, ?_⟩
  · intro s sc' uc' hc' ii'
    unfold solveCapCore
    rw [if_neg (by simp)]
    rfl
  · simp [emptyMaxMsg, lengthMsg]
  · show ([] : List ℚ).sum + ii = ii
    simp
  · unfold solve_lot_sizing
    rw [hcore]
    rfl

theorem c8_empty_series_witness :
    (wSolver (lotModel [] 0 0 0 0)).status = 2 ∧
    solveCapCore wSolver [] [] 0 0 0 0 = .error (.valueError emptyMaxMsg) ∧
    solveCore wSolver [] 0 0 0 0 = .ok ⟨[], [], [], 0⟩ :=
  ⟨by rw [wSolver_empty],
   (c8_empty_series wSolver wSolver_contract 0 0 0 0
      (by rw [wSolver_empty])).1 wSolver 0 0 0 0,
   (c8_empty_series wSolver wSolver_contract 0 0 0 0
      (by rw [wSolver_empty])).2.2.2.2.1⟩

/-- C10: Each operation is a deterministic function of its inputs and of
the solver's single answer to the one model it constructs: two calls
(possibly through two solver instances) whose solvers answer identically
on that model produce identical production plans, inventories, setup
flags and total costs.  In particular, calling the same operation twice
with identical parameters yields identical outputs. -/
theorem c10_deterministic (s1 s2 : Model → SolverResult) (d c : List ℚ)
    (sc uc hc ii : ℚ)
    (hLot : s1 (lotModel d sc uc hc ii) = s2 (lotModel d sc uc hc ii))
    (hCap : ∀ B, c.max? = some B →
      s1 (capModel d c sc uc hc ii B) = s2 (capModel d c sc uc hc ii B)) :
    solve_lot_sizing s1 d sc uc hc ii = solve_lot_sizing s2 d sc uc hc ii ∧
    solve_lot_sizing_basic s1 d sc uc hc ii
      = solve_lot_sizing_basic s2 d sc uc hc ii ∧
    solve_cap_lot_sizing s1 d c sc uc hc ii
      = solve_cap_lot_sizing s2 d c sc uc hc ii ∧
    solve_cap_lot_sizing_basic s1 d c sc uc hc ii
      = solve_cap_lot_sizing_basic s2 d c sc uc hc ii := by
  have hcore : solveCore s1 d sc uc hc ii = solveCore s2 d sc uc hc ii := by
    unfold solveCore
    rw [hLot]
  have hcap : solveCapCore s1 d c sc uc hc ii = solveCapCore s2 d c sc uc hc ii := by
    unfold solveCapCore
    by_cases hlen : d.length ≠ c.length
    · rw [if_pos hlen, if_pos hlen]
    · rw [if_neg hlen, if_neg hlen]
      cases hm : c.max? with
      | none => rfl
      | some B =>
        exact congrArg
          (fun r : SolverResult =>
            if r.status = 2 then Except.ok (extractOut d.length r)
            else Except.error (PyErr.runtimeError (statusMsg r.status)))
          (hCap B hm)
  exact ⟨by unfold solve_lot_sizing; rw [hcore],
    by unfold solve_lot_sizing_basic; rw [hcore],
    by unfold solve_cap_lot_sizing; rw [hcap],
    by unfold solve_cap_lot_sizing_basic; rw [hcap]⟩

theorem c10_deterministic_witness :
    (wSolver (lotModel [1] 0 0 0 0) = wSolver (lotModel [1] 0 0 0 0)) ∧
    (solve_lot_sizing wSolver [1] 0 0 0 0 = solve_lot_sizing wSolver [1] 0 0 0 0 ∧
     solve_lot_sizing_basic wSolver [1] 0 0 0 0
       = solve_lot_sizing_basic wSolver [1] 0 0 0 0 ∧
     solve_cap_lot_sizing wSolver [1] [2] 0 0 0 0
       = solve_cap_lot_sizing wSolver [1] [2] 0 0 0 0 ∧
     solve_cap_lot_sizing_basic wSolver [1] [2] 0 0 0 0
       = solve_cap_lot_sizing_basic wSolver [1] [2] 0 0 0 0) :=
  ⟨rfl, c10_deterministic wSolver wSolver [1] [2] 0 0 0 0 rfl (fun _ _ => rfl)⟩

/-! ## Command-line boundary -/

/-- JSON values as produced by the tools (numbers, integers, arrays,
objects with ordered keys). -/
inductive JVal where
  | jnum : ℚ → JVal
  | jint : ℤ → JVal
  | jarr : List JVal → JVal
  | jobj : List (String × JVal) → JVal

/-- A run of space characters. -/
def spaces (n : ℕ) : String := String.mk (List.replicate n ' ')

/-- A JSON object key in double quotes (keys here need no escaping). -/
def jkey (s : String) : String := "\"" ++ s ++ "\""

/-- Modelled from the spec: Python's `json.dump(value, out, indent=2)`
(the `json` standard library is outside this repository).  With an indent,
arrays and objects put each element on its own line, indented two spaces
deeper than the container, with separators `,` and `: `; empty containers
stay on one line; no trailing newline is produced.  The rendering of
numbers to text is Python float/int `repr`, kept abstract here as the
`numStr`/`intStr` parameters. -/
def pyDump (numStr : ℚ → String) (intStr : ℤ → String) : ℕ → JVal → String
  | _, .jnum q => numStr q
  | _, .jint n => intStr n
  | _, .jarr [] => "[]"
  | ind, .jarr (v :: vs) =>
    "[\n" ++ String.intercalate ",\n"
        ((v :: vs).attach.map
          (fun x => spaces (ind + 2) ++ pyDump numStr intStr (ind + 2) x.1))
      ++ "\n" ++ spaces ind ++ "]"
  | _, .jobj [] => "\x7b\x7d"
  | ind, .jobj (kv :: kvs) =>
    "\x7b\n" ++ String.intercalate ",\n"
        ((kv :: kvs).attach.map
          (fun x => spaces (ind + 2) ++ jkey x.1.1 ++ ": "
            ++ pyDump numStr intStr (ind + 2) x.1.2))
      ++ "\n" ++ spaces ind ++ "\x7d"
termination_by _ v => sizeOf v
decreasing_by
  · simp_wf
    have := List.sizeOf_lt_of_mem x.2
    simp at this
    omega
  · simp_wf
    have := List.sizeOf_lt_of_mem x.2
    obtain ⟨⟨k, jv⟩, hmem⟩ := x
    simp at this ⊢
    omega

/-- The JSON object serialised by the command-line entry: the structured
result dictionary with its four keys in insertion order. -/
def lotResultJson (r : LotDict) : JVal :=
  .jobj [("production_plan", .jarr (r.production_plan.map .jnum)),
         ("inventory", .jarr (r.inventory.map .jnum)),
         ("setup", .jarr (r.setup.map .jint)),
         ("total_cost", .jnum r.total_cost)]

/-- The key list of a JSON object. -/
def jsonKeys : JVal → List String
  | .jobj l => l.map Prod.fst
  | _ => []

/-- The named parameters of the single JSON object `json.load` reads from
standard input for `lot_sizing_tool.py`; a missing `initial_inventory`
key takes the keyword default `0.0`. -/
structure LotParams where
  demand : List ℚ
  setup_cost : ℚ
  unit_cost : ℚ
  holding_cost : ℚ
  initial_inventory : Option ℚ

/-- The named parameters read from standard input for
`capacitated_lot_sizing_tool.py`. -/
structure CapParams where
  demand : List ℚ
  capacity : List ℚ
  setup_cost : ℚ
  unit_cost : ℚ
  holding_cost : ℚ
  initial_inventory : Option ℚ

/-- The `__main__` block of `lot_sizing_tool.py`: apply the structured
tool `solve_lot_sizing` to the parameters parsed from the one stdin JSON
object, then `json.dump(result, sys.stdout, indent=2)` followed by a
single `sys.stdout.write("\n")`. -/
def mainLot (numStr : ℚ → String) (intStr : ℤ → String)
    (solver : Model → SolverResult) (p : LotParams) : Except PyErr String :=
  (solve_lot_sizing solver p.demand p.setup_cost p.unit_cost p.holding_cost
      (p.initial_inventory.getD 0)).map
    (fun r => pyDump numStr intStr 0 (lotResultJson r) ++ "\n")

/-- The `__main__` block of `capacitated_lot_sizing_tool.py`, invoking the
structured tool `solve_cap_lot_sizing`. -/
def mainCap (numStr : ℚ → String) (intStr : ℤ → String)
    (solver : Model → SolverResult) (p : CapParams) : Except PyErr String :=
  (solve_cap_lot_sizing solver p.demand p.capacity p.setup_cost p.unit_cost
      p.holding_cost (p.initial_inventory.getD 0)).map
    (fun r => pyDump numStr intStr 0 (lotResultJson r) ++ "\n")

/-- C9: Run directly, each formulation module invokes the structured
operation (the four-key mapping, not the compact pair) on the named
parameters of the one stdin JSON object, and writes that object
serialised with two-space indentation, followed by exactly one trailing
newline (the serialised body ends in the closing brace, not in a
newline). -/
theorem c9_cli_output (numStr : ℚ → String) (intStr : ℤ → String)
    (solver : Model → SolverResult) (p : LotParams) (q : CapParams)
    (rL rC : LotDict)
    (hL : solve_lot_sizing solver p.demand p.setup_cost p.unit_cost
        p.holding_cost (p.initial_inventory.getD 0) = .ok rL)
    (hC : solve_cap_lot_sizing solver q.demand q.capacity q.setup_cost
        q.unit_cost q.holding_cost (q.initial_inventory.getD 0) = .ok rC) :
    mainLot numStr intStr solver p
        = .ok (pyDump numStr intStr 0 (lotResultJson rL) ++ "\n") ∧
    mainCap numStr intStr solver q
        = .ok (pyDump numStr intStr 0 (lotResultJson rC) ++ "\n") ∧
    jsonKeys (lotResultJson rL)
        = ["production_plan", "inventory", "setup", "total_cost"] ∧
    (∀ r : LotDict,
      pyDump numStr intStr 0 (lotResultJson r)
        = "\x7b\n"
          ++ String.intercalate ",\n"
            ["  " ++ jkey "production_plan" ++ ": "
                ++ pyDump numStr intStr 2 (.jarr (r.production_plan.map .jnum)),
             "  " ++ jkey "inventory" ++ ": "
                ++ pyDump numStr intStr 2 (.jarr (r.inventory.map .jnum)),
             "  " ++ jkey "setup" ++ ": "
                ++ pyDump numStr intStr 2 (.jarr (r.setup.map .jint)),
             "  " ++ jkey "total_cost" ++ ": " ++ numStr r.total_cost]
          ++ "\n" ++ "\x7d") ∧
    ∀ r : LotDict, ∃ A,
      pyDump numStr intStr 0 (lotResultJson r) = A ++ "\x7d" := by
  have hexp : ∀ r : LotDict,
      pyDump numStr intStr 0 (lotResultJson r)
        = "\x7b\n"
          ++ String.intercalate ",\n"
            ["  " ++ jkey "production_plan" ++ ": "
                ++ pyDump numStr intStr 2 (.jarr (r.production_plan.map .jnum)),
             "  " ++ jkey "inventory" ++ ": "
                ++ pyDump numStr intStr 2 (.jarr (r.inventory.map .jnum)),
             "  " ++ jkey "setup" ++ ": "
                ++ pyDump numStr intStr 2 (.jarr (r.setup.map .jint)),
             "  " ++ jkey "total_cost" ++ ": " ++ numStr r.total_cost]
          ++ "\n" ++ "\x7d" := by
    intro r
    simp [pyDump, lotResultJson, spaces, jkey]
  refine ⟨?_, ?_, rfl, hexp, fun r => ?_⟩
  · unfold mainLot
    rw [hL]
    rfl
  · unfold mainCap
    rw [hC]
    rfl
  · refine ⟨"\x7b\n"
      ++ String.intercalate ",\n"
        ["  " ++ jkey "production_plan" ++ ": "
            ++ pyDump numStr intStr 2 (.jarr (r.production_plan.map .jnum)),
         "  " ++ jkey "inventory" ++ ": "
            ++ pyDump numStr intStr 2 (.jarr (r.inventory.map .jnum)),
         "  " ++ jkey "setup" ++ ": "
            ++ pyDump numStr intStr 2 (.jarr (r.setup.map .jint)),
         "  " ++ jkey "total_cost" ++ ": " ++ numStr r.total_cost]
      ++ "\n", ?_⟩
    rw [hexp r]

theorem wDict_eval :
    solve_lot_sizing wSolver [1] 0 0 0 0 = .ok ⟨[1], [0], [1], 0⟩ := by
  unfold solve_lot_sizing
  rw [wCore_eval]
  rfl

theorem wCapDict_eval :
    solve_cap_lot_sizing wSolver [1] [2] 0 0 0 0 = .ok ⟨[1], [0], [1], 0⟩ := by
  unfold solve_cap_lot_sizing
  rw [wCapCore_eval]
  rfl

theorem c9_cli_output_witness :
    solve_lot_sizing wSolver [1] 0 0 0 0 = .ok ⟨[1], [0], [1], 0⟩ ∧
    solve_cap_lot_sizing wSolver [1] [2] 0 0 0 0 = .ok ⟨[1], [0], [1], 0⟩ ∧
    mainLot toString toString wSolver ⟨[1], 0, 0, 0, some 0⟩
      = .ok (pyDump toString toString 0 (lotResultJson ⟨[1], [0], [1], 0⟩)
          ++ "\n") ∧
    mainCap toString toString wSolver ⟨[1], [2], 0, 0, 0, some 0⟩
      = .ok (pyDump toString toString 0 (lotResultJson ⟨[1], [0], [1], 0⟩)
          ++ "\n") :=
  ⟨wDict_eval, wCapDict_eval,
   (c9_cli_output toString toString wSolver ⟨[1], 0, 0, 0, some 0⟩
      ⟨[1], [2], 0, 0, 0, some 0⟩ _ _ wDict_eval wCapDict_eval).1,
   (c9_cli_output toString toString wSolver ⟨[1], 0, 0, 0, some 0⟩
      ⟨[1], [2], 0, 0, 0, some 0⟩ _ _ wDict_eval wCapDict_eval).2.1⟩
